import Mathlib

/-!
Verification of the pio_irq interrupt demultiplexing registry
(src/source/pio_irq.cpp) against its specification.

Machine integers are modelled as Nat with explicit truncation where the
C types can overflow.  The assert macro (abort-style, unrecoverable) is
modelled by returning Option: none is an assertion failure, some is a
normal return.  Hardware register writes and handler invocations are
modelled as explicit effect traces.
-/

/-- Model of the C function sm_from_interrupt (pio_irq.cpp lines 11-21).
The source loops i from 0 to 3 and breaks at the first i whose bit is set
in irq_val; here that constant-bound loop is unrolled, with 4 the value of
i when the loop falls through.  The assert after the loop (i != 4) is
modelled by Option: none means the abort-style assertion fired.  The
parameter ir is taken by the C function but never read. -/
def sm_from_interrupt (irq_val ir : Nat) : Option Nat :=
  let i := if irq_val.testBit 0 then 0
           else if irq_val.testBit 1 then 1
           else if irq_val.testBit 2 then 2
           else if irq_val.testBit 3 then 3
           else 4
  if i ≠ 4 then some i else none

/-- Model of the C function relative_interrupt (pio_irq.cpp lines 26-32):
retval = ir & 0x03; retval += sm (uint32_t addition, hence the mod 2^32);
retval %= 4; retval |= ir & 0xfffffffc. -/
def relative_interrupt (ir sm : Nat) : Nat :=
  let retval := Nat.land ir 0x03
  let retval := (retval + sm) % 4294967296
  let retval := retval % 4
  Nat.lor retval (Nat.land ir 0xfffffffc)

/-- Model of index_for (pio_irq.cpp line 35): PIO_NUM(pio) * 4 + sm, with
the PIO instance represented by its number. -/
def index_for (pioNum sm : Nat) : Nat := pioNum * 4 + sm

/-- Model of interrupt_source (pio_irq.cpp lines 38-40): arithmetic on the
pio_interrupt_source enum, represented by its underlying value. -/
def interrupt_source (is ir : Nat) : Nat := is + ir

/-- Value of the SDK constant PIO0_IRQ_0 (NVIC interrupt number of PIO0 line 0). -/
def PIO0_IRQ_0 : Nat := 7

/-- Underlying value of the SDK enum constant pis_interrupt0. -/
def pis_interrupt0 : Nat := 8

/-- Model of pio_irq::register_handler (pio_irq.cpp lines 102-107).  The
handler table handlers_ is modelled as a total function from slot index to
an optional handler (none models a null pointer).  Returns the updated
table together with the boolean result:
set ? old == nullptr : true. -/
def register_handler {H : Type} (handlers : Nat → Option H) (pioNum sm : Nat)
    (handler : Option H) (set : Bool) : (Nat → Option H) × Bool :=
  let idx := index_for pioNum sm
  let old := handlers idx
  let handlers2 := fun j => if j = idx then (if set then handler else none) else handlers j
  (handlers2, if set then old.isNone else true)

/-- Observable effects of one run of the dispatch trampoline. -/
inductive Effect (H : Type) where
  | clearFlag : Nat → Nat → Effect H
  | invoke : H → Effect H
deriving DecidableEq, Repr

/-- Effects of the conditional handler call at the end of the trampoline:
an invocation when the slot holds a handler, nothing otherwise. -/
def invokeEffects {H : Type} (h : Option H) : List (Effect H) :=
  match h with
  | some f => [Effect.invoke f]
  | none => []

/-- Model of pio_irq::interrupt_handler (pio_irq.cpp lines 111-123) for the
table parametrised by interrupt_number, run on PIO instance pioNum whose
raised-flag register holds irq.  Returns the ordered trace of observable
effects; none models the assertion inside sm_from_interrupt firing.
The source: early return when pio->irq == 0; resolve sm; compute ir;
clear flag ir unconditionally; look up the handler and call it if non-null. -/
def interrupt_handler {H : Type} (handlers : Nat → Option H)
    (interrupt_number pioNum irq : Nat) : Option (List (Effect H)) :=
  if irq = 0 then some []
  else
    match sm_from_interrupt irq interrupt_number with
    | none => none
    | some sm =>
      let ir := relative_interrupt interrupt_number sm
      some (Effect.clearFlag pioNum ir :: invokeEffects (handlers (index_for pioNum sm)))

/-- Hardware-register effects of the wiring function. -/
inductive WireEffect where
  | setIrq0SourceEnabled : Nat → Nat → Bool → WireEffect
  | setIrq1SourceEnabled : Nat → Nat → Bool → WireEffect
  | addSharedHandler : Nat → WireEffect
  | setEnabled : Nat → Bool → WireEffect
deriving DecidableEq, Repr

/-- Model of pio_irq::register_interrupt (pio_irq.cpp lines 66-97).  The
assert (irq_channel < 2) precedes every hardware write; its failure is
modelled by none.  On success the ordered list of register-API calls is
returned: one source-enable on line 0 or line 1, the shared-vector
installation, and, when enable is true, the NVIC enable. -/
def register_interrupt (interrupt_number irq_channel pioNum sm : Nat)
    (enable : Bool) : Option (List WireEffect) :=
  if irq_channel < 2 then
    let irq_num := PIO0_IRQ_0 + 2 * pioNum + irq_channel
    let src := interrupt_source pis_interrupt0 (relative_interrupt interrupt_number sm)
    let e1 := if irq_channel = 0 then WireEffect.setIrq0SourceEnabled pioNum src true
              else WireEffect.setIrq1SourceEnabled pioNum src true
    some (e1 :: WireEffect.addSharedHandler irq_num ::
      (if enable then [WireEffect.setEnabled irq_num true] else []))
  else none

/-- Helper: for base and sm both below 4 the relative flag index is plain
modulo-4 addition. -/
lemma relative_interrupt_small : ∀ base < 4, ∀ sm < 4,
    relative_interrupt base sm = (base + sm) % 4 := by decide

/-- C1: for every base in 0..3 and sm in 0..3, relative_interrupt(base, sm)
has low two bits equal to (base + sm) mod 4 and all bits above position 1
equal to those of base. -/
theorem relative_interrupt_c1 : ∀ base < 4, ∀ sm < 4,
    relative_interrupt base sm % 4 = (base + sm) % 4 ∧
    relative_interrupt base sm / 4 = base / 4 := by decide

/-- Witness for C1 at base = 1, sm = 2. -/
theorem relative_interrupt_c1_witness :
    relative_interrupt 1 2 % 4 = (1 + 2) % 4 ∧
    relative_interrupt 1 2 / 4 = 1 / 4 :=
  relative_interrupt_c1 1 (by decide) 2 (by decide)

/-- C3: for each single-bit raised-flag word 0b0001, 0b0010, 0b0100,
0b1000 and every logical interrupt number ir, sm_from_interrupt returns
the index of the (lowest, here unique) set bit. -/
theorem sm_from_interrupt_c3 (ir : Nat) :
    sm_from_interrupt 1 ir = some 0 ∧
    sm_from_interrupt 2 ir = some 1 ∧
    sm_from_interrupt 4 ir = some 2 ∧
    sm_from_interrupt 8 ir = some 3 := by
  refine ⟨rfl, rfl, rfl, rfl⟩

/-- C7: when the raised-flag word is all-zero the trampoline returns at
once with an empty effect trace: no flag cleared, no handler invoked, and
no state-machine resolution (in particular no resolution assertion). -/
theorem interrupt_handler_c7 {H : Type} (handlers : Nat → Option H)
    (interrupt_number pioNum : Nat) :
    interrupt_handler handlers interrupt_number pioNum 0 = some [] := rfl

/-- C10: the resolved state machine does not depend on the logical
interrupt number: whenever some bit among 0..3 of irq_val is set,
sm_from_interrupt gives the same result for any two values of ir. -/
theorem sm_from_interrupt_c10 (irq_val ir1 ir2 : Nat)
    (hbit : ∃ i, i < 4 ∧ irq_val.testBit i) :
    sm_from_interrupt irq_val ir1 = sm_from_interrupt irq_val ir2 := rfl

/-- Witness for C10: irq_val = 0b0101 has bit 0 set; the resolution agrees
for ir = 1 and ir = 3. -/
theorem sm_from_interrupt_c10_witness :
    sm_from_interrupt 5 1 = sm_from_interrupt 5 3 :=
  sm_from_interrupt_c10 5 1 3 ⟨0, by decide, by decide⟩

/-- Counterexample to C4: the raised-flag word 0b0011 has two bits set
among bits 0..3, yet sm_from_interrupt returns normally (the assertion,
modelled by none, does not fire): it yields the lowest set bit, 0. -/
theorem sm_from_interrupt_c4_counterexample :
    sm_from_interrupt 3 0 = some 0 ∧ sm_from_interrupt 3 0 ≠ none := by decide

/-- C4 (amended): for every raised-flag word with more than one bit set
among bits 0..3, state-machine resolution does not abort: it returns
normally the index of the lowest set bit.  (The abort-style assertion in
the code fires only when no bit among 0..3 is set.) -/
theorem sm_from_interrupt_c4_amended (irq_val ir i j : Nat)
    (hij : i < j) (hj : j < 4)
    (hbi : irq_val.testBit i) (hbj : irq_val.testBit j) :
    ∃ k, sm_from_interrupt irq_val ir = some k ∧
      irq_val.testBit k ∧ ∀ m < k, ¬ irq_val.testBit m := by
  by_cases h0 : irq_val.testBit 0
  · exact ⟨0, by simp [sm_from_interrupt, h0], h0, by omega⟩
  · by_cases h1 : irq_val.testBit 1
    · refine ⟨1, by simp [sm_from_interrupt, h0, h1], h1, ?_⟩
      intro m hm
      interval_cases m
      exact h0
    · by_cases h2 : irq_val.testBit 2
      · refine ⟨2, by simp [sm_from_interrupt, h0, h1, h2], h2, ?_⟩
        intro m hm
        interval_cases m
        · exact h0
        · exact h1
      · by_cases h3 : irq_val.testBit 3
        · refine ⟨3, by simp [sm_from_interrupt, h0, h1, h2, h3], h3, ?_⟩
          intro m hm
          interval_cases m
          · exact h0
          · exact h1
          · exact h2
        · exfalso
          interval_cases j
          · exact h0 hbj
          · exact h1 hbj
          · exact h2 hbj
          · exact h3 hbj

/-- Witness for C4 (amended) at irq_val = 0b0011, ir = 0, bits 0 < 1. -/
theorem sm_from_interrupt_c4_amended_witness :
    ∃ k, sm_from_interrupt 3 0 = some k ∧
      Nat.testBit 3 k ∧ ∀ m < k, ¬ Nat.testBit 3 m :=
  sm_from_interrupt_c4_amended 3 0 0 1 (by decide) (by decide) (by decide) (by decide)

/-- C5: binding with set = true installs the given handler at the slot for
(pioNum, sm), and the boolean result is true exactly when that slot held
no handler beforehand; nothing of a displaced handler is preserved or
returned (the result carries only the new table and the boolean). -/
theorem register_handler_c5 {H : Type} (handlers : Nat → Option H)
    (pioNum sm : Nat) (h : H) :
    (register_handler handlers pioNum sm (some h) true).1 (index_for pioNum sm) = some h ∧
    ((register_handler handlers pioNum sm (some h) true).2 = true ↔
      handlers (index_for pioNum sm) = none) := by
  constructor
  · simp [register_handler]
  · simp [register_handler, Option.isNone_iff_eq_none]

/-- C6: end-to-end scenario over the empty table with interrupt number 0:
binding handler 10 (A) at (instance 0, sm 1) returns true; binding handler
20 (B) at the same slot returns false; a subsequent dispatch for a firing
of sm 1 (raised word 0b0010) clears flag 1 and invokes B, not A. -/
theorem register_handler_c6 :
    (register_handler (fun _ => (none : Option Nat)) 0 1 (some 10) true).2 = true ∧
    (register_handler
      (register_handler (fun _ => (none : Option Nat)) 0 1 (some 10) true).1
      0 1 (some 20) true).2 = false ∧
    interrupt_handler
      (register_handler
        (register_handler (fun _ => (none : Option Nat)) 0 1 (some 10) true).1
        0 1 (some 20) true).1
      0 0 2 = some [Effect.clearFlag 0 1, Effect.invoke 20] := by
  refine ⟨rfl, rfl, rfl⟩

/-- C8: wiring with a line value other than 0 or 1 fails fatally at the
precondition assert before any hardware register write: the model returns
none, producing no effect at all. -/
theorem register_interrupt_c8 (interrupt_number irq_channel pioNum sm : Nat)
    (enable : Bool) (hch : 2 ≤ irq_channel) :
    register_interrupt interrupt_number irq_channel pioNum sm enable = none := by
  simp [register_interrupt]
  omega

/-- Witness for C8 at line = 2. -/
theorem register_interrupt_c8_witness :
    register_interrupt 0 2 0 0 true = none :=
  register_interrupt_c8 0 2 0 0 true (by decide)

/-- Helper: the second argument of sm_from_interrupt is never read. -/
lemma sm_from_interrupt_ir_irrel (irq_val ir1 ir2 : Nat) :
    sm_from_interrupt irq_val ir1 = sm_from_interrupt irq_val ir2 := rfl

/-- Helper: when the raised word is non-zero and resolution yields sm, the
trampoline trace is the unconditional flag clear followed by the optional
invocation. -/
lemma interrupt_handler_dispatch {H : Type} (handlers : Nat → Option H)
    (n p irq sm : Nat) (hirq : irq ≠ 0)
    (hsm : sm_from_interrupt irq n = some sm) :
    interrupt_handler handlers n p irq =
      some (Effect.clearFlag p (relative_interrupt n sm) ::
        invokeEffects (handlers (index_for p sm))) := by
  simp [interrupt_handler, hirq, hsm]

/-- Helper: a non-zero 4-bit word has a set bit among positions 0..3. -/
lemma testBit_of_lt16 : ∀ irq < 16, irq ≠ 0 →
    (Nat.testBit irq 0 ∨ Nat.testBit irq 1 ∨ Nat.testBit irq 2 ∨ Nat.testBit irq 3) := by
  decide

/-- C2: for every non-zero 4-bit raised-flag word and logical interrupt
number n in 0..3, the trampoline resolves a state machine sm and its trace
begins with the clear of exactly flag (n + sm) mod 4 — before any
invocation and regardless of whether the slot for sm holds a handler — and
when no handler is bound the trace contains no invocation at all. -/
theorem interrupt_handler_c2 {H : Type} (handlers : Nat → Option H)
    (n p irq : Nat) (hn : n < 4) (hpos : 0 < irq) (h16 : irq < 16) :
    ∃ sm, sm_from_interrupt irq n = some sm ∧
      interrupt_handler handlers n p irq =
        some (Effect.clearFlag p ((n + sm) % 4) ::
          invokeEffects (handlers (index_for p sm))) ∧
      (handlers (index_for p sm) = none →
        invokeEffects (handlers (index_for p sm)) = []) := by
  have hirq : irq ≠ 0 := by omega
  by_cases hb0 : irq.testBit 0
  · have hsm : sm_from_interrupt irq n = some 0 := by simp [sm_from_interrupt, hb0]
    refine ⟨0, hsm, ?_, fun he => by simp [invokeEffects, he]⟩
    rw [interrupt_handler_dispatch handlers n p irq 0 hirq hsm,
      relative_interrupt_small n hn 0 (by norm_num)]
  · by_cases hb1 : irq.testBit 1
    · have hsm : sm_from_interrupt irq n = some 1 := by simp [sm_from_interrupt, hb0, hb1]
      refine ⟨1, hsm, ?_, fun he => by simp [invokeEffects, he]⟩
      rw [interrupt_handler_dispatch handlers n p irq 1 hirq hsm,
        relative_interrupt_small n hn 1 (by norm_num)]
    · by_cases hb2 : irq.testBit 2
      · have hsm : sm_from_interrupt irq n = some 2 := by
          simp [sm_from_interrupt, hb0, hb1, hb2]
        refine ⟨2, hsm, ?_, fun he => by simp [invokeEffects, he]⟩
        rw [interrupt_handler_dispatch handlers n p irq 2 hirq hsm,
          relative_interrupt_small n hn 2 (by norm_num)]
      · by_cases hb3 : irq.testBit 3
        · have hsm : sm_from_interrupt irq n = some 3 := by
            simp [sm_from_interrupt, hb0, hb1, hb2, hb3]
          refine ⟨3, hsm, ?_, fun he => by simp [invokeEffects, he]⟩
          rw [interrupt_handler_dispatch handlers n p irq 3 hirq hsm,
            relative_interrupt_small n hn 3 (by norm_num)]
        · rcases testBit_of_lt16 irq h16 hirq with h | h | h | h
          · exact absurd h hb0
          · exact absurd h hb1
          · exact absurd h hb2
          · exact absurd h hb3

/-- Witness for C2 at n = 1, p = 0, irq = 0b0100 over the empty table. -/
theorem interrupt_handler_c2_witness :
    ∃ sm, sm_from_interrupt 4 1 = some sm ∧
      interrupt_handler (fun _ => (none : Option Nat)) 1 0 4 =
        some (Effect.clearFlag 0 ((1 + sm) % 4) ::
          invokeEffects ((fun _ => (none : Option Nat)) (index_for 0 sm))) ∧
      ((fun _ => (none : Option Nat)) (index_for 0 sm) = none →
        invokeEffects ((fun _ => (none : Option Nat)) (index_for 0 sm)) = []) :=
  interrupt_handler_c2 (fun _ => none) 1 0 4 (by decide) (by decide) (by decide)

/-- C9: for a word with exactly one set bit at position b, the trampoline
takes the raw bit position b as the state-machine id: it clears flag
(n + b) mod 4 and consults handler slot p * 4 + b — not the slot of the
state machine s with (n + s) mod 4 = b when n is non-zero. -/
theorem interrupt_handler_c9 {H : Type} (handlers : Nat → Option H)
    (n p b : Nat) (hn : n < 4) (hb : b < 4) :
    interrupt_handler handlers n p (2 ^ b) =
      some (Effect.clearFlag p ((n + b) % 4) ::
        invokeEffects (handlers (p * 4 + b))) := by
  interval_cases b
  · have hsm : sm_from_interrupt (2 ^ 0) n = some 0 :=
      (sm_from_interrupt_ir_irrel (2 ^ 0) n 0).trans (by decide)
    rw [interrupt_handler_dispatch handlers n p (2 ^ 0) 0 (by norm_num) hsm,
      relative_interrupt_small n hn 0 (by norm_num)]
    simp [index_for]
  · have hsm : sm_from_interrupt (2 ^ 1) n = some 1 :=
      (sm_from_interrupt_ir_irrel (2 ^ 1) n 0).trans (by decide)
    rw [interrupt_handler_dispatch handlers n p (2 ^ 1) 1 (by norm_num) hsm,
      relative_interrupt_small n hn 1 (by norm_num)]
    simp [index_for]
  · have hsm : sm_from_interrupt (2 ^ 2) n = some 2 :=
      (sm_from_interrupt_ir_irrel (2 ^ 2) n 0).trans (by decide)
    rw [interrupt_handler_dispatch handlers n p (2 ^ 2) 2 (by norm_num) hsm,
      relative_interrupt_small n hn 2 (by norm_num)]
    simp [index_for]
  · have hsm : sm_from_interrupt (2 ^ 3) n = some 3 :=
      (sm_from_interrupt_ir_irrel (2 ^ 3) n 0).trans (by decide)
    rw [interrupt_handler_dispatch handlers n p (2 ^ 3) 3 (by norm_num) hsm,
      relative_interrupt_small n hn 3 (by norm_num)]
    simp [index_for]

/-- Witness for C9 at n = 2, p = 0, b = 1 over the empty table: flag
(2 + 1) mod 4 = 3 is cleared while slot 1 is consulted. -/
theorem interrupt_handler_c9_witness :
    interrupt_handler (fun _ => (none : Option Nat)) 2 0 (2 ^ 1) =
      some (Effect.clearFlag 0 ((2 + 1) % 4) ::
        invokeEffects ((fun _ => (none : Option Nat)) (0 * 4 + 1))) :=
  interrupt_handler_c9 (fun _ => none) 2 0 1 (by decide) (by decide)
